import Mathlib

/-!
# The Python module initializer of crocoddyl

A shallow embedding of `BOOST_PYTHON_MODULE(libcrocoddyl_pywrap)` from
`bindings/python/crocoddyl/crocoddyl.cpp`.  The initializer is a straight-line
sequence of five effects on the process: one attribute assignment on the module
scope and four calls into external collaborators, each of which either returns
or raises a C++ exception that leaves the initializer at once.
-/

namespace crocoddyl.python

/-! ## Data model -/

/-- Compile-time extent of an Eigen matrix: `Eigen::Dynamic` or a fixed size. -/
inductive Dim where
  | dynamic
  | fixed (n : Nat)
deriving DecidableEq, Repr

/-- Scalar element types an Eigen matrix can be instantiated with. -/
inductive ScalarType where
  | double
  | float
  | int
deriving DecidableEq, Repr

/-- The type `Eigen::Matrix<scalar, rows, cols>`, the argument of
`eigenpy::enableEigenPySpecific`. -/
structure MatrixType where
  scalar : ScalarType
  rows : Dim
  cols : Dim
deriving DecidableEq, Repr

/-- Source: `typedef double Scalar;` -/
def Scalar : ScalarType := ScalarType.double

/-- Source: `typedef Eigen::Matrix<Scalar, Eigen::Dynamic, 1> VectorX;` -/
def VectorX : MatrixType := ⟨Scalar, Dim.dynamic, Dim.fixed 1⟩

/-- Source: `typedef Eigen::Matrix<Scalar, Eigen::Dynamic, Eigen::Dynamic> MatrixX;` -/
def MatrixX : MatrixType := ⟨Scalar, Dim.dynamic, Dim.dynamic⟩

/-- The effects the initializer can issue, one constructor per statement form. -/
inductive Call where
  | setAttr (name value : String)
  | enableEigenPy
  | enableEigenPySpecific (t : MatrixType)
  | exposeCore
deriving DecidableEq, Repr

/-- One entry of a run's trace: the effect that was issued and whether it
returned normally (`true`) or raised (`false`).  Effects are sequential and do
not nest, so an entry's position is both its invocation and its completion
order. -/
structure Event where
  call : Call
  returned : Bool
deriving DecidableEq, Repr

/-- The two failures of the boundary (spec section 7). -/
inductive Err where
  | initializationFailure
  | registrationFailure
deriving DecidableEq, Repr

/-- The explicit process state the module load acts on: the string attributes
of the module namespace, whether the generic array bridge is on, the matrix
types the per-shape bridge is enabled for, and the registered capabilities. -/
structure Proc where
  attrs : List (String × String)
  bridgeEnabled : Bool
  descriptors : List MatrixType
  capabilities : List String
deriving DecidableEq, Repr

/-- The process before any load: nothing attached, nothing enabled. -/
def Proc.unloaded : Proc := ⟨[], false, [], []⟩

/-- The external collaborators, none of which is defined in this file of the
repository: the version accessor, the catalog of names `exposeCore` registers,
and which external call raises in which process state. -/
structure Env where
  printVersion : String
  catalog : List String
  raises : Call → Proc → Bool

/-- Process state together with the trace of the effects issued so far. -/
structure World where
  proc : Proc
  trace : List Event
deriving DecidableEq, Repr

/-! ## The effect monad: state that survives an exception -/

/-- A computation of the initializer: it returns or raises, and in both cases
hands back the world as it left it (a C++ exception undoes nothing). -/
def Init (α : Type) : Type := World → Except Err α × World

instance : Monad Init where
  pure a := fun w => (Except.ok a, w)
  bind m f := fun w =>
    match m w with
    | (Except.ok a, w1) => f a w1
    | (Except.error e, w1) => (Except.error e, w1)

/-- Assignment to a named attribute: overwrite in place or append. -/
def assign (name value : String) : List (String × String) → List (String × String)
  | [] => [(name, value)]
  | (k, v) :: rest =>
    if k = name then (name, value) :: rest else (k, v) :: assign name value rest

/-- Attribute lookup by name. -/
def lookup (name : String) : List (String × String) → Option String
  | [] => none
  | (k, v) :: rest => if k = name then some v else lookup name rest

/-- Insertion into a registry kept without duplicates. -/
def register {α : Type} [DecidableEq α] (x : α) (xs : List α) : List α :=
  if x ∈ xs then xs else xs ++ [x]

/-- An external call: it is recorded in the trace; when the environment makes
it raise, the error leaves the computation and the process is as before the
call, otherwise its effect is applied. -/
def external (env : Env) (c : Call) (e : Err) (effect : Proc → Proc) : Init Unit :=
  fun w =>
    if env.raises c w.proc then
      (Except.error e, { w with trace := w.trace ++ [⟨c, false⟩] })
    else
      (Except.ok (), { proc := effect w.proc, trace := w.trace ++ [⟨c, true⟩] })

/-- Source: `bp::scope().attr(name) = value;` on the module being built. -/
def setAttr (name value : String) : Init Unit :=
  fun w =>
    (Except.ok (),
      { proc := { w.proc with attrs := assign name value w.proc.attrs },
        trace := w.trace ++ [⟨Call.setAttr name value, true⟩] })

/-- Modelled from the spec: `eigenpy::enableEigenPy()` is not in this file; it
globally enables the generic array bridge, is idempotent, and raises an
initialization failure when the numeric subsystem is unavailable. -/
def enableEigenPy (env : Env) : Init Unit :=
  external env Call.enableEigenPy Err.initializationFailure
    fun p => { p with bridgeEnabled := true }

/-- Modelled from the spec: `eigenpy::enableEigenPySpecific<T>()` is not in this
file; it enables the bridge for the matrix type `T`, enabling an already
enabled type being a no-op, and raises an initialization failure otherwise. -/
def enableEigenPySpecific (env : Env) (t : MatrixType) : Init Unit :=
  external env (Call.enableEigenPySpecific t) Err.initializationFailure
    fun p => { p with descriptors := register t p.descriptors }

/-- Modelled from the spec: `exposeCore()` is declared in
`python/crocoddyl/core.hpp`, which is not in this file; it registers every name
of the library's catalog with the module, or raises a registration failure. -/
def exposeCore (env : Env) : Init Unit :=
  external env Call.exposeCore Err.registrationFailure
    fun p =>
      { p with
        capabilities := env.catalog.foldl (fun caps c => register c caps) p.capabilities }

/-! ## The module initializer -/

/-- Source: the body of `BOOST_PYTHON_MODULE(libcrocoddyl_pywrap)`, statement by
statement and in the order of the file. -/
def initModule (env : Env) : Init Unit := do
  setAttr "__version__" env.printVersion
  enableEigenPy env
  enableEigenPySpecific env VectorX
  enableEigenPySpecific env MatrixX
  exposeCore env

/-- What one run of the initializer leaves behind. -/
structure Run where
  result : Except Err Unit
  final : Proc
  trace : List Event

/-- One module load from process state `s`, its trace starting empty. -/
def load (env : Env) (s : Proc) : Run :=
  let r := initModule env ⟨s, []⟩
  ⟨r.1, r.2.proc, r.2.trace⟩

/-! ## Vocabulary of the proofs -/

/-- The process after `__version__` has been assigned. -/
def stamped (env : Env) (s : Proc) : Proc :=
  { s with attrs := assign "__version__" env.printVersion s.attrs }

/-- The process after the generic enabler returned. -/
def bridged (p : Proc) : Proc := { p with bridgeEnabled := true }

/-- The process after the per-shape enabler returned for `t`. -/
def shaped (t : MatrixType) (p : Proc) : Proc :=
  { p with descriptors := register t p.descriptors }

/-- The process after `exposeCore` returned. -/
def exposed (env : Env) (p : Proc) : Proc :=
  { p with capabilities := env.catalog.foldl (fun caps c => register c caps) p.capabilities }

/-- The trace entry of the version assignment. -/
def stampEvent (env : Env) : Event := ⟨Call.setAttr "__version__" env.printVersion, true⟩

/-- A healthy environment: no external call raises. -/
def healthyEnv : Env := ⟨"1.2.0", ["ActionModelAbstract", "SolverDDP"], fun _ _ => false⟩

/-- An environment whose numeric subsystem is missing: `enableEigenPy` raises. -/
def brokenBridgeEnv : Env :=
  ⟨"1.2.0", ["ActionModelAbstract", "SolverDDP"], fun c _ => c == Call.enableEigenPy⟩

/-- A run of the initializer stops at the first external call that raises, so
it has one of five shapes, told apart by what the environment answers. -/
theorem load_cases (env : Env) (s : Proc) :
    (env.raises Call.enableEigenPy (stamped env s) = true ∧
      load env s = ⟨Except.error Err.initializationFailure, stamped env s,
        [stampEvent env, ⟨Call.enableEigenPy, false⟩]⟩) ∨
    (env.raises Call.enableEigenPy (stamped env s) = false ∧
      env.raises (Call.enableEigenPySpecific VectorX) (bridged (stamped env s)) = true ∧
      load env s = ⟨Except.error Err.initializationFailure, bridged (stamped env s),
        [stampEvent env, ⟨Call.enableEigenPy, true⟩,
          ⟨Call.enableEigenPySpecific VectorX, false⟩]⟩) ∨
    (env.raises Call.enableEigenPy (stamped env s) = false ∧
      env.raises (Call.enableEigenPySpecific VectorX) (bridged (stamped env s)) = false ∧
      env.raises (Call.enableEigenPySpecific MatrixX)
        (shaped VectorX (bridged (stamped env s))) = true ∧
      load env s = ⟨Except.error Err.initializationFailure,
        shaped VectorX (bridged (stamped env s)),
        [stampEvent env, ⟨Call.enableEigenPy, true⟩,
          ⟨Call.enableEigenPySpecific VectorX, true⟩,
          ⟨Call.enableEigenPySpecific MatrixX, false⟩]⟩) ∨
    (env.raises Call.enableEigenPy (stamped env s) = false ∧
      env.raises (Call.enableEigenPySpecific VectorX) (bridged (stamped env s)) = false ∧
      env.raises (Call.enableEigenPySpecific MatrixX)
        (shaped VectorX (bridged (stamped env s))) = false ∧
      env.raises Call.exposeCore
        (shaped MatrixX (shaped VectorX (bridged (stamped env s)))) = true ∧
      load env s = ⟨Except.error Err.registrationFailure,
        shaped MatrixX (shaped VectorX (bridged (stamped env s))),
        [stampEvent env, ⟨Call.enableEigenPy, true⟩,
          ⟨Call.enableEigenPySpecific VectorX, true⟩,
          ⟨Call.enableEigenPySpecific MatrixX, true⟩, ⟨Call.exposeCore, false⟩]⟩) ∨
    (env.raises Call.enableEigenPy (stamped env s) = false ∧
      env.raises (Call.enableEigenPySpecific VectorX) (bridged (stamped env s)) = false ∧
      env.raises (Call.enableEigenPySpecific MatrixX)
        (shaped VectorX (bridged (stamped env s))) = false ∧
      env.raises Call.exposeCore
        (shaped MatrixX (shaped VectorX (bridged (stamped env s)))) = false ∧
      load env s = ⟨Except.ok (),
        exposed env (shaped MatrixX (shaped VectorX (bridged (stamped env s)))),
        [stampEvent env, ⟨Call.enableEigenPy, true⟩,
          ⟨Call.enableEigenPySpecific VectorX, true⟩,
          ⟨Call.enableEigenPySpecific MatrixX, true⟩, ⟨Call.exposeCore, true⟩]⟩) := by
  cases h1 : env.raises Call.enableEigenPy (stamped env s) <;>
  cases h2 : env.raises (Call.enableEigenPySpecific VectorX) (bridged (stamped env s)) <;>
  cases h3 : env.raises (Call.enableEigenPySpecific MatrixX)
        (shaped VectorX (bridged (stamped env s))) <;>
  cases h4 : env.raises Call.exposeCore
        (shaped MatrixX (shaped VectorX (bridged (stamped env s)))) <;>
  simp [stamped, bridged, shaped, exposed] at h1 h2 h3 h4 <;>
  simp [load, initModule, bind, setAttr, enableEigenPy, enableEigenPySpecific, exposeCore,
    external, stamped, bridged, shaped, exposed, stampEvent, h1, h2, h3, h4]

/-- Where a list splits around one of its entries. -/
theorem split_at {α : Type} (l pre post : List α) (e : α) (h : l = pre ++ e :: post) :
    pre.length < l.length ∧ pre = l.take pre.length ∧ l[pre.length]? = some e ∧
      post = l.drop (pre.length + 1) := by
  subst h
  refine ⟨by simp, by simp, ?_, by simp⟩
  induction pre with
  | nil => simp
  | cons a t ih => simpa using ih

/-! ## Attribute and registry lemmas -/

/-- Reading back an attribute that was just assigned gives the assigned value. -/
theorem lookup_assign (name value : String) (l : List (String × String)) :
    lookup name (assign name value l) = some value := by
  induction l with
  | nil => simp [assign, lookup]
  | cons kv rest ih =>
    obtain ⟨k, v⟩ := kv
    by_cases hk : k = name
    · simp [assign, lookup, hk]
    · simp [assign, lookup, hk, ih]

/-- Assigning the same value twice is assigning it once. -/
theorem assign_assign (name value : String) (l : List (String × String)) :
    assign name value (assign name value l) = assign name value l := by
  induction l with
  | nil => simp [assign]
  | cons kv rest ih =>
    obtain ⟨k, v⟩ := kv
    by_cases hk : k = name
    · simp [assign, hk]
    · simp [assign, hk, ih]

/-- Registering what is already registered changes nothing. -/
theorem register_of_mem {α : Type} [DecidableEq α] (x : α) (xs : List α) (h : x ∈ xs) :
    register x xs = xs := by
  simp [register, h]

/-- The members of a registry after one insertion. -/
theorem mem_register {α : Type} [DecidableEq α] (x y : α) (xs : List α) :
    y ∈ register x xs ↔ y ∈ xs ∨ y = x := by
  unfold register
  split
  · constructor
    · intro h
      exact Or.inl h
    · rintro (h | h)
      · exact h
      · subst h
        assumption
  · simp

/-- The members of a registry after a whole catalog was inserted. -/
theorem mem_foldl_register (cat caps : List String) (y : String) :
    y ∈ cat.foldl (fun caps c => register c caps) caps ↔ y ∈ caps ∨ y ∈ cat := by
  induction cat generalizing caps with
  | nil => simp
  | cons c rest ih =>
    simp only [List.foldl_cons, ih, mem_register, List.mem_cons]
    tauto

/-- Inserting a catalog whose names are all registered changes nothing. -/
theorem foldl_register_of_subset (cat caps : List String) (h : ∀ c ∈ cat, c ∈ caps) :
    cat.foldl (fun caps c => register c caps) caps = caps := by
  induction cat generalizing caps with
  | nil => rfl
  | cons c rest ih =>
    have hc : c ∈ caps := h c (List.mem_cons_self c rest)
    simp only [List.foldl_cons, register_of_mem c caps hc]
    exact ih caps (fun d hd => h d (List.mem_cons_of_mem c hd))

/-- A second pass of all five effects over a process that already went through
them leaves it as it is. -/
theorem settled_twice (env : Env) (s : Proc) :
    exposed env (shaped MatrixX (shaped VectorX (bridged (stamped env
      (exposed env (shaped MatrixX (shaped VectorX (bridged (stamped env s))))))))) =
    exposed env (shaped MatrixX (shaped VectorX (bridged (stamped env s)))) := by
  have hV : VectorX ∈ register MatrixX (register VectorX s.descriptors) := by
    simp [mem_register]
  have hM : MatrixX ∈ register MatrixX (register VectorX s.descriptors) := by
    simp [mem_register]
  have hcaps : ∀ c ∈ env.catalog,
      c ∈ env.catalog.foldl (fun caps c => register c caps) s.capabilities := by
    intro c hc
    exact (mem_foldl_register env.catalog s.capabilities c).mpr (Or.inr hc)
  simp [exposed, shaped, bridged, stamped, assign_assign, register_of_mem _ _ hV,
    register_of_mem _ _ hM, foldl_register_of_subset _ _ hcaps]

/-! ## Claims -/

/-- C1: in every run of the initializer, whatever fails, an `exposeCore` entry
of the trace has the three bridge enablers before it, each having returned,
and no bridge enabler after it. -/
theorem C1_bridge_setup_completes_before_exposeCore (env : Env) (s : Proc)
    (pre post : List Event) (e : Event)
    (hsplit : (load env s).trace = pre ++ e :: post) (he : e.call = Call.exposeCore) :
    (⟨Call.enableEigenPy, true⟩ ∈ pre ∧ ⟨Call.enableEigenPySpecific VectorX, true⟩ ∈ pre ∧
      ⟨Call.enableEigenPySpecific MatrixX, true⟩ ∈ pre) ∧
    ∀ x ∈ post, x.call ≠ Call.enableEigenPy ∧ ∀ t, x.call ≠ Call.enableEigenPySpecific t := by
  obtain ⟨hlt, hpre, hmid, hpost⟩ := split_at _ _ _ _ hsplit
  generalize pre.length = n at hlt hpre hmid hpost
  rcases load_cases env s with
    ⟨-, h⟩ | ⟨-, -, h⟩ | ⟨-, -, -, h⟩ | ⟨-, -, -, -, h⟩ | ⟨-, -, -, -, h⟩ <;>
  rw [h] at hlt hpre hmid hpost <;>
  simp only [List.length_cons, List.length_nil] at hlt <;>
  interval_cases n <;>
  simp [stampEvent] at hmid <;>
  subst hmid <;> simp at he <;>
  subst hpre hpost <;>
  simp

/-- C1 at a healthy environment, the trace split at its `exposeCore` entry. -/
theorem C1_bridge_setup_completes_before_exposeCore_witness :
    (load healthyEnv Proc.unloaded).trace =
      [⟨Call.setAttr "__version__" "1.2.0", true⟩, ⟨Call.enableEigenPy, true⟩,
        ⟨Call.enableEigenPySpecific VectorX, true⟩,
        ⟨Call.enableEigenPySpecific MatrixX, true⟩] ++ ⟨Call.exposeCore, true⟩ :: [] ∧
    ((⟨Call.enableEigenPy, true⟩ ∈
        [(⟨Call.setAttr "__version__" "1.2.0", true⟩ : Event), ⟨Call.enableEigenPy, true⟩,
          ⟨Call.enableEigenPySpecific VectorX, true⟩,
          ⟨Call.enableEigenPySpecific MatrixX, true⟩] ∧
      ⟨Call.enableEigenPySpecific VectorX, true⟩ ∈
        [(⟨Call.setAttr "__version__" "1.2.0", true⟩ : Event), ⟨Call.enableEigenPy, true⟩,
          ⟨Call.enableEigenPySpecific VectorX, true⟩,
          ⟨Call.enableEigenPySpecific MatrixX, true⟩] ∧
      ⟨Call.enableEigenPySpecific MatrixX, true⟩ ∈
        [(⟨Call.setAttr "__version__" "1.2.0", true⟩ : Event), ⟨Call.enableEigenPy, true⟩,
          ⟨Call.enableEigenPySpecific VectorX, true⟩,
          ⟨Call.enableEigenPySpecific MatrixX, true⟩]) ∧
      ∀ x ∈ ([] : List Event),
        x.call ≠ Call.enableEigenPy ∧ ∀ t, x.call ≠ Call.enableEigenPySpecific t) :=
  ⟨by decide,
    C1_bridge_setup_completes_before_exposeCore healthyEnv Proc.unloaded _ _
      ⟨Call.exposeCore, true⟩ (by decide) rfl⟩

/-- C2 as stated fails: in a successful run the `__version__` assignment is the
first entry of the trace, with none of the bridge enablers before it. -/
theorem C2_version_stamped_before_bridge_counterexample :
    (load healthyEnv Proc.unloaded).result = Except.ok () ∧
    (load healthyEnv Proc.unloaded).trace =
      [] ++ ⟨Call.setAttr "__version__" "1.2.0", true⟩ ::
        [⟨Call.enableEigenPy, true⟩, ⟨Call.enableEigenPySpecific VectorX, true⟩,
          ⟨Call.enableEigenPySpecific MatrixX, true⟩, ⟨Call.exposeCore, true⟩] ∧
    ¬ (∀ pre post : List Event, ∀ e : Event,
        (load healthyEnv Proc.unloaded).trace = pre ++ e :: post →
        e.call = Call.setAttr "__version__" healthyEnv.printVersion →
        ⟨Call.enableEigenPy, true⟩ ∈ pre ∧
          ⟨Call.enableEigenPySpecific VectorX, true⟩ ∈ pre ∧
          ⟨Call.enableEigenPySpecific MatrixX, true⟩ ∈ pre) := by
  refine ⟨rfl, by decide, ?_⟩
  intro h
  have h0 := h [] [⟨Call.enableEigenPy, true⟩, ⟨Call.enableEigenPySpecific VectorX, true⟩,
    ⟨Call.enableEigenPySpecific MatrixX, true⟩, ⟨Call.exposeCore, true⟩]
    ⟨Call.setAttr "__version__" "1.2.0", true⟩ (by decide) (by decide)
  simp at h0

/-- C2, amended: a successful run issues exactly five effects in the order of
the source, the `__version__` assignment first, then `enableEigenPy`, the
per-shape enabler for `VectorX` and for `MatrixX`, and `exposeCore` last, each
returning before the next is issued. -/
theorem C2_load_sequence (env : Env) (s : Proc)
    (hok : (load env s).result = Except.ok ()) :
    (load env s).trace =
      [⟨Call.setAttr "__version__" env.printVersion, true⟩, ⟨Call.enableEigenPy, true⟩,
        ⟨Call.enableEigenPySpecific VectorX, true⟩,
        ⟨Call.enableEigenPySpecific MatrixX, true⟩, ⟨Call.exposeCore, true⟩] := by
  rcases load_cases env s with
    ⟨-, h⟩ | ⟨-, -, h⟩ | ⟨-, -, -, h⟩ | ⟨-, -, -, -, h⟩ | ⟨-, -, -, -, h⟩ <;>
  rw [h] at hok ⊢ <;>
  simp [stampEvent] at hok ⊢

/-- C2, amended, at a healthy environment. -/
theorem C2_load_sequence_witness :
    (load healthyEnv Proc.unloaded).result = Except.ok () ∧
    (load healthyEnv Proc.unloaded).trace =
      [⟨Call.setAttr "__version__" healthyEnv.printVersion, true⟩,
        ⟨Call.enableEigenPy, true⟩, ⟨Call.enableEigenPySpecific VectorX, true⟩,
        ⟨Call.enableEigenPySpecific MatrixX, true⟩, ⟨Call.exposeCore, true⟩] :=
  ⟨rfl, C2_load_sequence healthyEnv Proc.unloaded rfl⟩

/-- C3: after a successful run the module namespace holds `__version__` with
exactly the string `printVersion()` returned, hence a non-empty one whenever
that string is non-empty; this is the namespace as the load returns it. -/
theorem C3_version_attribute_matches_accessor (env : Env) (s : Proc)
    (hok : (load env s).result = Except.ok ()) :
    lookup "__version__" (load env s).final.attrs = some env.printVersion ∧
    (env.printVersion ≠ "" →
      ∃ v, lookup "__version__" (load env s).final.attrs = some v ∧ v ≠ "") := by
  have key : lookup "__version__" (load env s).final.attrs = some env.printVersion := by
    rcases load_cases env s with
      ⟨-, h⟩ | ⟨-, -, h⟩ | ⟨-, -, -, h⟩ | ⟨-, -, -, -, h⟩ | ⟨-, -, -, -, h⟩ <;>
    rw [h] at hok ⊢ <;>
    simp [exposed, shaped, bridged, stamped, lookup_assign] at hok ⊢
  exact ⟨key, fun hne => ⟨env.printVersion, key, hne⟩⟩

/-- C3 at a healthy environment. -/
theorem C3_version_attribute_matches_accessor_witness :
    (load healthyEnv Proc.unloaded).result = Except.ok () ∧
    (lookup "__version__" (load healthyEnv Proc.unloaded).final.attrs =
        some healthyEnv.printVersion ∧
      (healthyEnv.printVersion ≠ "" →
        ∃ v, lookup "__version__" (load healthyEnv Proc.unloaded).final.attrs = some v ∧
          v ≠ "")) :=
  ⟨rfl, C3_version_attribute_matches_accessor healthyEnv Proc.unloaded rfl⟩

/-- C4 as stated fails: when `enableEigenPy` raises on a fresh process the load
aborts, but the namespace is not empty, it already holds `__version__`. -/
theorem C4_namespace_not_empty_counterexample :
    (load brokenBridgeEnv Proc.unloaded).trace =
      [⟨Call.setAttr "__version__" "1.2.0", true⟩, ⟨Call.enableEigenPy, false⟩] ∧
    (load brokenBridgeEnv Proc.unloaded).result = Except.error Err.initializationFailure ∧
    (load brokenBridgeEnv Proc.unloaded).final.attrs = [("__version__", "1.2.0")] ∧
    (load brokenBridgeEnv Proc.unloaded).final.attrs ≠ Proc.unloaded.attrs := by
  refine ⟨by decide, rfl, by decide, by decide⟩

/-- C4, amended: when one of the three bridge enablers raises, the load ends
with an initialization failure, `exposeCore` is not invoked, no capability is
registered, and the namespace holds its earlier attributes with `__version__`
assigned, the one effect the initializer issues before the bridge setup. -/
theorem C4_bridge_failure_aborts_before_exposure (env : Env) (s : Proc) (e : Event)
    (hmem : e ∈ (load env s).trace) (hraised : e.returned = false)
    (hbridge : e.call = Call.enableEigenPy ∨ ∃ t, e.call = Call.enableEigenPySpecific t) :
    (load env s).result = Except.error Err.initializationFailure ∧
    (∀ x ∈ (load env s).trace, x.call ≠ Call.exposeCore) ∧
    (load env s).final.capabilities = s.capabilities ∧
    (load env s).final.attrs = assign "__version__" env.printVersion s.attrs ∧
    (s.attrs = [] → (load env s).final.attrs = [("__version__", env.printVersion)]) := by
  obtain ⟨c, r⟩ := e
  simp only at hraised hbridge
  subst hraised
  rcases load_cases env s with
    ⟨-, h⟩ | ⟨-, -, h⟩ | ⟨-, -, -, h⟩ | ⟨-, -, -, -, h⟩ | ⟨-, -, -, -, h⟩ <;>
  rw [h] at hmem ⊢ <;>
  simp [stampEvent] at hmem
  · simp +contextual [stampEvent, stamped, assign]
  · simp +contextual [stampEvent, bridged, stamped, assign]
  · simp +contextual [stampEvent, shaped, bridged, stamped, assign]
  · subst hmem
    simp at hbridge

/-- C4, amended, where `enableEigenPy` raises on a fresh process. -/
theorem C4_bridge_failure_aborts_before_exposure_witness :
    (⟨Call.enableEigenPy, false⟩ : Event) ∈ (load brokenBridgeEnv Proc.unloaded).trace ∧
    ((load brokenBridgeEnv Proc.unloaded).result = Except.error Err.initializationFailure ∧
      (∀ x ∈ (load brokenBridgeEnv Proc.unloaded).trace, x.call ≠ Call.exposeCore) ∧
      (load brokenBridgeEnv Proc.unloaded).final.capabilities = Proc.unloaded.capabilities ∧
      (load brokenBridgeEnv Proc.unloaded).final.attrs =
        assign "__version__" brokenBridgeEnv.printVersion Proc.unloaded.attrs ∧
      (Proc.unloaded.attrs = [] →
        (load brokenBridgeEnv Proc.unloaded).final.attrs =
          [("__version__", brokenBridgeEnv.printVersion)])) :=
  ⟨by decide,
    C4_bridge_failure_aborts_before_exposure brokenBridgeEnv Proc.unloaded
      ⟨Call.enableEigenPy, false⟩ (by decide) rfl (Or.inl rfl)⟩

/-- C6: in a successful run `exposeCore` is invoked exactly once and is the
last effect of the run. -/
theorem C6_exposeCore_once_and_last (env : Env) (s : Proc)
    (hok : (load env s).result = Except.ok ()) :
    ((load env s).trace.map Event.call).count Call.exposeCore = 1 ∧
    (load env s).trace.getLast? = some ⟨Call.exposeCore, true⟩ := by
  rcases load_cases env s with
    ⟨-, h⟩ | ⟨-, -, h⟩ | ⟨-, -, -, h⟩ | ⟨-, -, -, -, h⟩ | ⟨-, -, -, -, h⟩ <;>
  rw [h] at hok ⊢ <;>
  simp [stampEvent] at hok ⊢

/-- C6 at a healthy environment. -/
theorem C6_exposeCore_once_and_last_witness :
    (load healthyEnv Proc.unloaded).result = Except.ok () ∧
    (((load healthyEnv Proc.unloaded).trace.map Event.call).count Call.exposeCore = 1 ∧
      (load healthyEnv Proc.unloaded).trace.getLast? = some ⟨Call.exposeCore, true⟩) :=
  ⟨rfl, C6_exposeCore_once_and_last healthyEnv Proc.unloaded rfl⟩

/-- C7: in every run, whatever fails, a call of the per-shape enabler has a
returned call of the generic enabler `enableEigenPy` before it in the trace. -/
theorem C7_generic_enabler_before_per_shape (env : Env) (s : Proc)
    (pre post : List Event) (e : Event) (t : MatrixType)
    (hsplit : (load env s).trace = pre ++ e :: post)
    (he : e.call = Call.enableEigenPySpecific t) :
    ⟨Call.enableEigenPy, true⟩ ∈ pre := by
  obtain ⟨hlt, hpre, hmid, hpost⟩ := split_at _ _ _ _ hsplit
  generalize pre.length = n at hlt hpre hmid hpost
  rcases load_cases env s with
    ⟨-, h⟩ | ⟨-, -, h⟩ | ⟨-, -, -, h⟩ | ⟨-, -, -, -, h⟩ | ⟨-, -, -, -, h⟩ <;>
  rw [h] at hlt hpre hmid hpost <;>
  simp only [List.length_cons, List.length_nil] at hlt <;>
  interval_cases n <;>
  simp [stampEvent] at hmid <;>
  subst hmid <;> simp at he <;>
  subst hpre <;>
  simp

/-- C7 at a healthy environment, the trace split at the call for `VectorX`. -/
theorem C7_generic_enabler_before_per_shape_witness :
    (load healthyEnv Proc.unloaded).trace =
      [⟨Call.setAttr "__version__" "1.2.0", true⟩, ⟨Call.enableEigenPy, true⟩] ++
        ⟨Call.enableEigenPySpecific VectorX, true⟩ ::
          [⟨Call.enableEigenPySpecific MatrixX, true⟩, ⟨Call.exposeCore, true⟩] ∧
    (⟨Call.enableEigenPy, true⟩ : Event) ∈
      [(⟨Call.setAttr "__version__" "1.2.0", true⟩ : Event), ⟨Call.enableEigenPy, true⟩] :=
  ⟨by decide,
    C7_generic_enabler_before_per_shape healthyEnv Proc.unloaded _
      [⟨Call.enableEigenPySpecific MatrixX, true⟩, ⟨Call.exposeCore, true⟩]
      ⟨Call.enableEigenPySpecific VectorX, true⟩ VectorX (by decide) rfl⟩

/-- C8: a successful run calls the per-shape enabler exactly once for the
double dynamic column vector, exactly once for the double dynamic-by-dynamic
matrix and never for another matrix type, and the types enabled afterwards are
those two on top of the ones enabled before, so exactly those two on a fresh
process. -/
theorem C8_exactly_two_descriptors (env : Env) (s : Proc)
    (hok : (load env s).result = Except.ok ()) :
    (∀ t : MatrixType,
      ((load env s).trace.map Event.call).count (Call.enableEigenPySpecific t) =
        if t = ⟨ScalarType.double, Dim.dynamic, Dim.fixed 1⟩ ∨
            t = ⟨ScalarType.double, Dim.dynamic, Dim.dynamic⟩ then 1 else 0) ∧
    (∀ t : MatrixType, t ∈ (load env s).final.descriptors ↔
      t ∈ s.descriptors ∨ t = ⟨ScalarType.double, Dim.dynamic, Dim.fixed 1⟩ ∨
        t = ⟨ScalarType.double, Dim.dynamic, Dim.dynamic⟩) ∧
    (s.descriptors = [] →
      (load env s).final.descriptors =
        [⟨ScalarType.double, Dim.dynamic, Dim.fixed 1⟩,
          ⟨ScalarType.double, Dim.dynamic, Dim.dynamic⟩]) := by
  rcases load_cases env s with
    ⟨-, h⟩ | ⟨-, -, h⟩ | ⟨-, -, -, h⟩ | ⟨-, -, -, -, h⟩ | ⟨-, -, -, -, h⟩ <;>
  rw [h] at hok ⊢ <;>
  simp only [reduceCtorEq] at hok
  refine ⟨?_, ?_, ?_⟩
  · intro t
    by_cases hV : t = VectorX
    · subst hV
      simp [stampEvent, List.count_cons, VectorX, MatrixX, Scalar]
    · by_cases hM : t = MatrixX
      · subst hM
        simp [stampEvent, List.count_cons, VectorX, MatrixX, Scalar]
      · have hV2 : ¬ VectorX = t := fun h => hV h.symm
        have hM2 : ¬ MatrixX = t := fun h => hM h.symm
        have hV3 : ¬ t = ⟨ScalarType.double, Dim.dynamic, Dim.fixed 1⟩ := hV
        have hM3 : ¬ t = ⟨ScalarType.double, Dim.dynamic, Dim.dynamic⟩ := hM
        simp [stampEvent, List.count_cons, hV2, hM2, hV3, hM3]
  · intro t
    simp only [exposed, shaped, bridged, stamped, mem_register]
    simp [VectorX, MatrixX, Scalar, or_assoc]
  · intro hnil
    simp [exposed, shaped, bridged, stamped, hnil, register, VectorX, MatrixX, Scalar]

/-- C8 at a healthy environment on a fresh process. -/
theorem C8_exactly_two_descriptors_witness :
    (load healthyEnv Proc.unloaded).result = Except.ok () ∧
    ((∀ t : MatrixType,
      ((load healthyEnv Proc.unloaded).trace.map Event.call).count
          (Call.enableEigenPySpecific t) =
        if t = ⟨ScalarType.double, Dim.dynamic, Dim.fixed 1⟩ ∨
            t = ⟨ScalarType.double, Dim.dynamic, Dim.dynamic⟩ then 1 else 0) ∧
    (∀ t : MatrixType, t ∈ (load healthyEnv Proc.unloaded).final.descriptors ↔
      t ∈ Proc.unloaded.descriptors ∨ t = ⟨ScalarType.double, Dim.dynamic, Dim.fixed 1⟩ ∨
        t = ⟨ScalarType.double, Dim.dynamic, Dim.dynamic⟩) ∧
    (Proc.unloaded.descriptors = [] →
      (load healthyEnv Proc.unloaded).final.descriptors =
        [⟨ScalarType.double, Dim.dynamic, Dim.fixed 1⟩,
          ⟨ScalarType.double, Dim.dynamic, Dim.dynamic⟩])) :=
  ⟨rfl, C8_exactly_two_descriptors healthyEnv Proc.unloaded rfl⟩

/-- C9: in an environment where no external call raises, the initializer run
twice in a row succeeds both times, and the second run leaves the same
`__version__` string and the same capability names as the first, indeed the
same process state. -/
theorem C9_repeated_load_idempotent (env : Env) (s : Proc)
    (hhealthy : ∀ c p, env.raises c p = false) :
    (load env s).result = Except.ok () ∧
    (load env (load env s).final).result = Except.ok () ∧
    lookup "__version__" (load env (load env s).final).final.attrs =
      lookup "__version__" (load env s).final.attrs ∧
    lookup "__version__" (load env (load env s).final).final.attrs =
      some env.printVersion ∧
    (load env (load env s).final).final.capabilities = (load env s).final.capabilities ∧
    (load env (load env s).final).final = (load env s).final := by
  have run : ∀ p : Proc, load env p = ⟨Except.ok (),
      exposed env (shaped MatrixX (shaped VectorX (bridged (stamped env p)))),
      [stampEvent env, ⟨Call.enableEigenPy, true⟩,
        ⟨Call.enableEigenPySpecific VectorX, true⟩,
        ⟨Call.enableEigenPySpecific MatrixX, true⟩, ⟨Call.exposeCore, true⟩]⟩ := by
    intro p
    rcases load_cases env p with
      ⟨h1, -⟩ | ⟨-, h1, -⟩ | ⟨-, -, h1, -⟩ | ⟨-, -, -, h1, -⟩ | ⟨-, -, -, -, h⟩
    · simp [hhealthy] at h1
    · simp [hhealthy] at h1
    · simp [hhealthy] at h1
    · simp [hhealthy] at h1
    · exact h
  have hfinal : (load env (load env s).final).final = (load env s).final := by
    rw [run s, run]
    exact settled_twice env s
  have hver : lookup "__version__" (load env s).final.attrs = some env.printVersion := by
    rw [run s]
    simp [exposed, shaped, bridged, stamped, lookup_assign]
  refine ⟨?_, ?_, ?_, ?_, ?_, hfinal⟩
  · rw [run s]
  · rw [run]
  · rw [hfinal]
  · rw [hfinal, hver]
  · rw [hfinal]

/-- C9 at a healthy environment on a fresh process. -/
theorem C9_repeated_load_idempotent_witness :
    (∀ c p, healthyEnv.raises c p = false) ∧
    ((load healthyEnv Proc.unloaded).result = Except.ok () ∧
      (load healthyEnv (load healthyEnv Proc.unloaded).final).result = Except.ok () ∧
      lookup "__version__" (load healthyEnv (load healthyEnv Proc.unloaded).final).final.attrs =
        lookup "__version__" (load healthyEnv Proc.unloaded).final.attrs ∧
      lookup "__version__" (load healthyEnv (load healthyEnv Proc.unloaded).final).final.attrs =
        some healthyEnv.printVersion ∧
      (load healthyEnv (load healthyEnv Proc.unloaded).final).final.capabilities =
        (load healthyEnv Proc.unloaded).final.capabilities ∧
      (load healthyEnv (load healthyEnv Proc.unloaded).final).final =
        (load healthyEnv Proc.unloaded).final) :=
  ⟨fun _ _ => rfl, C9_repeated_load_idempotent healthyEnv Proc.unloaded (fun _ _ => rfl)⟩

end crocoddyl.python
